import Mathlib

/-!
Verification of the quickrest REST toolkit against its specification.

The definitions below are a shallow embedding of the Python sources:
`http.py` (error taxonomy), `json.py` (envelope layer), `auth.py`
(authorization layer), `models.py` (resource abstraction) and `api.py`
(REST resource controller).  External collaborators (the JSON decoder,
the JWT library, the user table, database integrity) are passed in as
explicit oracle parameters; everything this repository computes is
modelled directly from the source.
-/

namespace QuickRest

/-! ## Error taxonomy (`http.py`) -/

namespace Reasons

def bad_request : String := "badRequest"

def invalid_field : String := "invalidField"

def no_key : String := "noKey"

def integrity_error : String := "integrityError"

def not_found : String := "notFound"

def server_error : String := "serverError"

def config_error : String := "configError"

def serialization_error : String := "serializationError"

def deserialization_error : String := "deserializationError"

def all : List String :=
  [bad_request, invalid_field, no_key, integrity_error, not_found,
   server_error, config_error, serialization_error, deserialization_error]

end Reasons

/-- An `HttpError` instance: a status code (a class attribute of the
raising subclass) together with the effective reason string. -/
structure HttpErrT where
  status : Nat
  reason : String
deriving DecidableEq, Repr

/-- The concrete `HttpError` subclasses declared in `http.py`. -/
inductive ErrClass where
  | requestError
  | notFoundError
  | serverError
  | serializationError
  | deserializationError
  | configError
deriving DecidableEq, Repr

def ErrClass.status : ErrClass → Nat
  | .requestError => 400
  | .notFoundError => 404
  | .serverError => 500
  | .serializationError => 500
  | .deserializationError => 400
  | .configError => 500

def ErrClass.defaultReason : ErrClass → String
  | .requestError => Reasons.bad_request
  | .notFoundError => Reasons.not_found
  | .serverError => Reasons.server_error
  | .serializationError => Reasons.serialization_error
  | .deserializationError => Reasons.deserialization_error
  | .configError => Reasons.config_error

/-- `HttpError.__init__`: the `reason` keyword argument overrides the class
level reason only when it is truthy (a non-empty string). -/
def mkHttpError (c : ErrClass) (reasonArg : String) : HttpErrT :=
  ⟨c.status, if reasonArg = "" then c.defaultReason else reasonArg⟩

/-! ## JSON envelope layer (`json.py`)

An error envelope `{ error: { code, message, reason? } }`.  The class
attributes `JsonError.bad_request`, `JsonError.not_found`, ... are shared
dictionaries; `ApiView.dispatch` writes a `reason` key into whichever of
them `from_code` returned, and that write survives into later requests.
`Stale` records, per status code, the reason string currently stored in
the corresponding shared dictionary (`none` = the pristine dictionary). -/

structure ErrEnvelope where
  code : Nat
  message : String
  reason : Option String
deriving DecidableEq, Repr

structure Stale where
  r400 : Option String
  r401 : Option String
  r403 : Option String
  r404 : Option String
  r405 : Option String
  r500 : Option String
deriving DecidableEq, Repr

def Stale.init : Stale := ⟨none, none, none, none, none, none⟩

def Stale.get (st : Stale) : Nat → Option String
  | 400 => st.r400
  | 401 => st.r401
  | 403 => st.r403
  | 404 => st.r404
  | 405 => st.r405
  | 500 => st.r500
  | _ => none

def Stale.set (st : Stale) (code : Nat) (r : Option String) : Stale :=
  match code with
  | 400 => { st with r400 := r }
  | 401 => { st with r401 := r }
  | 403 => { st with r403 := r }
  | 404 => { st with r404 := r }
  | 405 => { st with r405 := r }
  | 500 => { st with r500 := r }
  | _ => st

/-- The `message` entries of the `error_dict` class attributes that
`JsonError.from_code` can return. -/
def baseMessage : Nat → Option String
  | 400 => some "Bad request"
  | 401 => some "Unauthorized request"
  | 403 => some "Resource already exists"
  | 404 => some "Resource not found"
  | 405 => some "Invalid request method"
  | 500 => some "Could not process request"
  | _ => none

/-- `JsonError.from_code`: returns the shared class dictionary for the code
(with whatever stale `reason` key it currently carries), or `None`. -/
def from_code (st : Stale) (code : Nat) : Option ErrEnvelope :=
  match baseMessage code with
  | some msg => some ⟨code, msg, st.get code⟩
  | none => none

/-- The `JsonError.bad_request` shared dictionary as currently visible. -/
def badRequestEnv (st : Stale) : ErrEnvelope := ⟨400, "Bad request", st.r400⟩

/-- The `JsonError.unauthorized` shared dictionary as currently visible. -/
def unauthorizedEnv (st : Stale) : ErrEnvelope :=
  ⟨401, "Unauthorized request", st.r401⟩

/-- The `JsonError.bad_method` shared dictionary as currently visible. -/
def badMethodEnv (st : Stale) : ErrEnvelope :=
  ⟨405, "Invalid request method", st.r405⟩

/-- The `JsonError.server_error` shared dictionary as currently visible. -/
def serverErrorEnv (st : Stale) : ErrEnvelope :=
  ⟨500, "Could not process request", st.r500⟩

/-- The error branch of `ApiView.dispatch`: look the status code up with
`from_code`, then (when the error's reason is truthy) assign
`error_response['error']['reason'] = e.reason`, which both shapes the
outgoing envelope and mutates the shared class dictionary in place.
A status outside the `from_code` table would make the Python code fail on
`None['error']`; that is modelled as no envelope. -/
def render_http_error (st : Stale) (e : HttpErrT) : Stale × Option ErrEnvelope :=
  match from_code st e.status with
  | none => (st, none)
  | some env =>
    if e.reason = "" then (st, some env)
    else (st.set e.status (some e.reason), some { env with reason := some e.reason })

/-- Reading the machine-visible fields back out of an error envelope. -/
def parse_error (env : ErrEnvelope) : Nat × Option String := (env.code, env.reason)

/-! ## Authorization layer (`auth.py`) -/

structure AuthErrorT where
  msg : String
deriving DecidableEq, Repr

/-- The decoded JWT payload as far as `authorize_token` consumes it:
the optional `sub` and `perm` members. -/
structure Payload where
  sub : Option Int
  perm : Option (List String)

structure AuthInfo where
  user_id : Int
  permissions : List String
deriving DecidableEq, Repr

/-- Outcome of the external `jwt.decode` call on a token string. -/
inductive JwtOutcome where
  | valid (payload : Payload)
  | invalidSignature
  | expiredSignature
  | decodeFailure

/-- `verify_token`: translate the three jwt library exceptions into
`AuthError`s carrying distinct internal messages. -/
def verify_token : JwtOutcome → Except AuthErrorT Payload
  | .valid p => .ok p
  | .invalidSignature => .error ⟨"Invalid signature"⟩
  | .expiredSignature => .error ⟨"Expired token"⟩
  | .decodeFailure => .error ⟨"Malformed token"⟩

/-- `authorize_token`: verify, then build an `AuthInfo` from
`decoded['sub']` and `decoded['perm']`; any failure there (missing keys,
unknown user id in `User.objects.get`) becomes `AuthError('Invalid JWT
fields')`. `userExists` is the user-table oracle. -/
def authorize_token (userExists : Int → Bool) (outcome : JwtOutcome) :
    Except AuthErrorT AuthInfo :=
  match verify_token outcome with
  | .error e => .error e
  | .ok p =>
    match p.sub, p.perm with
    | some s, some pm =>
      if userExists s then .ok ⟨s, pm⟩ else .error ⟨"Invalid JWT fields"⟩
    | _, _ => .error ⟨"Invalid JWT fields"⟩

/-- Python `str.split(' ')` with an explicit single-space separator:
splits at every space and keeps empty chunks. -/
def splitSp : List Char → List (List Char)
  | [] => [[]]
  | c :: cs =>
    if c = ' ' then [] :: splitSp cs
    else
      match splitSp cs with
      | [] => [[c]]
      | h :: t => (c :: h) :: t

/-- `get_bearer_token`: read the `Authorization` header, split on spaces and
return the element at index 1 (an `IndexError` is a failure). -/
def get_bearer_token (header : Option (List Char)) :
    Except AuthErrorT (List Char) :=
  match header with
  | none => .error ⟨"No bearer token in request"⟩
  | some h =>
    match splitSp h with
    | _ :: t1 :: _ => .ok t1
    | _ => .error ⟨"Bad bearer token"⟩

/-- `authorize_request`: takes the result of `get_bearer_token` (already the
chunk after the scheme) and splits it again into exactly a scheme and a
token, exactly as the source does. `decodeToken` is the jwt oracle. -/
def authorize_request (userExists : Int → Bool)
    (decodeToken : List Char → JwtOutcome)
    (header : Option (List Char)) : Except AuthErrorT AuthInfo :=
  match get_bearer_token header with
  | .error e => .error e
  | .ok h =>
    match splitSp h with
    | [auth_type, token] =>
      if auth_type = "Bearer".toList then
        authorize_token userExists (decodeToken token)
      else .error ⟨"Authorization type not supported"⟩
    | _ => .error ⟨"Could not read bearer token"⟩

/-- Handler metadata inspected by `Middleware.process_view`: the
`auth_exempt` marker, the `auth_method` override (which may or may not
attach an `AuthInfo` to the request), and `required_permissions`. -/
structure Callback where
  auth_exempt : Bool
  auth_method : Option (Option (List Char) → Except AuthErrorT (Option AuthInfo))
  required_permissions : List String

/-- Result of `Middleware.process_view`: admit the request downstream
(with the `request.auth` attribute it attached, if any), short-circuit with
a JSON response, or escape with a non-HttpError Python exception. -/
inductive PvResult where
  | allow (auth : Option AuthInfo)
  | respond (env : ErrEnvelope)
  | raiseExc (msg : String)
deriving Repr

/-- `Middleware.process_view` from `auth.py`. -/
def process_view (st : Stale) (userExists : Int → Bool)
    (decodeToken : List Char → JwtOutcome) (cb : Callback)
    (header : Option (List Char)) : PvResult :=
  if cb.auth_exempt then .allow none
  else
    let authRes : Except AuthErrorT (Option AuthInfo) :=
      match cb.auth_method with
      | some m => m header
      | none => (authorize_request userExists decodeToken header).map some
    match authRes with
    | .error _ => .respond (unauthorizedEnv st)
    | .ok a? =>
      if cb.required_permissions.isEmpty then .allow a?
      else
        match a? with
        | none => .raiseExc "AttributeError"
        | some a =>
          if cb.required_permissions.all (fun p => a.permissions.contains p) then
            .allow a?
          else .respond (unauthorizedEnv st)

/-! ### Facts about `splitSp` -/

lemma splitSp_ne_nil (l : List Char) : splitSp l ≠ [] := by
  induction l with
  | nil => simp [splitSp]
  | cons c cs ih =>
    by_cases hc : c = ' '
    · simp [splitSp, hc]
    · cases h : splitSp cs with
      | nil => simp [splitSp, hc, h]
      | cons a t => simp [splitSp, hc, h]

lemma splitSp_chunks_no_space (l ch : List Char) (hm : ch ∈ splitSp l) :
    ' ' ∉ ch := by
  induction l generalizing ch with
  | nil =>
    simp [splitSp] at hm
    simp [hm]
  | cons c cs ih =>
    by_cases hc : c = ' '
    · simp [splitSp, hc] at hm
      rcases hm with hm | hm
      · simp [hm]
      · exact ih ch hm
    · cases h : splitSp cs with
      | nil => exact absurd h (splitSp_ne_nil cs)
      | cons a t =>
        simp [splitSp, hc, h] at hm
        rcases hm with hm | hm
        · subst hm
          intro hmem
          rcases List.mem_cons.mp hmem with h1 | h1
          · exact hc h1.symm
          · exact ih a (by rw [h]; exact List.mem_cons_self a t) h1
        · exact ih ch (by rw [h]; exact List.mem_cons_of_mem a hm)

lemma splitSp_of_no_space (l : List Char) (hl : ' ' ∉ l) :
    splitSp l = [l] := by
  induction l with
  | nil => simp [splitSp]
  | cons c cs ih =>
    have hc : c ≠ ' ' := by
      intro h
      exact hl (by simp [h])
    have hcs : ' ' ∉ cs := by
      intro h
      exact hl (by simp [h])
    simp [splitSp, hc, ih hcs]

lemma get_bearer_token_no_space (header : Option (List Char))
    (tok : List Char) (h : get_bearer_token header = .ok tok) : ' ' ∉ tok := by
  cases header with
  | none => simp [get_bearer_token] at h
  | some hd =>
    cases hs : splitSp hd with
    | nil => exact absurd hs (splitSp_ne_nil hd)
    | cons a t =>
      cases t with
      | nil => simp [get_bearer_token, hs] at h
      | cons b t2 =>
        simp [get_bearer_token, hs] at h
        have hb : b ∈ splitSp hd := by
          rw [hs]
          exact List.mem_cons_of_mem a (List.mem_cons_self b t2)
        cases h
        exact splitSp_chunks_no_space hd tok hb

/-- The double split in `authorize_request`: the chunk returned by
`get_bearer_token` contains no space, so splitting it again never yields
the two pieces the tuple assignment requires. -/
lemma authorize_request_fails (userExists : Int → Bool)
    (decodeToken : List Char → JwtOutcome) (header : Option (List Char)) :
    ∃ e, authorize_request userExists decodeToken header = .error e := by
  cases hg : get_bearer_token header with
  | error e => exact ⟨e, by simp [authorize_request, hg]⟩
  | ok tok =>
    have hns := get_bearer_token_no_space header tok hg
    have hsp := splitSp_of_no_space tok hns
    exact ⟨⟨"Could not read bearer token"⟩, by simp [authorize_request, hg, hsp]⟩

/-! ## Resource abstraction (`models.py`) and controller (`api.py`)

Records are field valuations (`none` = unset / null), the database is an
association list keyed by primary key, and the model-level `full_clean`
validation and delete-time referential integrity are oracles supplied by
the concrete resource type. -/

def lookupA {κ α : Type} [DecidableEq κ] (k : κ) : List (κ × α) → Option α
  | [] => none
  | kv :: t => if k = kv.1 then some kv.2 else lookupA k t

abbrev Rec := String → Option Int

abbrev Fields := List (String × Int)

abbrev Db := List (Nat × Rec)

/-- Python `setattr` on a model instance. -/
def setF (r : Rec) (k : String) (v : Int) : Rec :=
  fun k' => if k' = k then some v else r k'

/-- A freshly constructed model instance: exactly the passed fields are
set, everything else is at its unset default. -/
def freshRec (f : Fields) : Rec := fun k => lookupA k f

/-- `Model.filter_fields`: returns `kwargs.copy()`. -/
def filter_fields (f : Fields) : Fields := f

/-- The attribute-assignment loop of `Model.update`: `setattr` each field
whose name is in the mutable-field whitelist, in order; others are
silently skipped. -/
def apply_mutable (wl : List String) (f : Fields) (r : Rec) : Rec :=
  f.foldl (fun acc kv => if kv.1 ∈ wl then setF acc kv.1 kv.2 else acc) r

/-- Per-resource configuration: the `QuickConfig` names, the Django model
field names (the constructor rejects unknown keyword arguments), the
mutable-field whitelist (`none` = unconfigured), the serializable field
names, and the `full_clean` / delete-integrity oracles. -/
structure ApiCfg where
  name : String
  plural : String
  fieldNames : List String
  mutable_fields : Option (List String)
  serializable_fields : List String
  valid : Rec → Bool
  deleteOk : Rec → Bool

/-- `Model.new`: `cls(**kwargs)`; a keyword that is not a model field raises
`TypeError`, re-raised as `ModelError`. -/
def model_new (cfg : ApiCfg) (f : Fields) : Except String Rec :=
  if f.all (fun kv => cfg.fieldNames.contains kv.1) then .ok (freshRec f)
  else .error "ModelError"

/-- `Model.update`: apply the whitelist-filtered assignments, run
`full_clean`, and only on success `save` (commit to the database row).
With an unconfigured whitelist, `kw in None` raises `TypeError`
(re-raised as `ModelError`) as soon as the loop runs.  Returns the update
result together with the database row after the call. -/
def model_update (wl : Option (List String)) (valid : Rec → Bool)
    (dbRow r : Rec) (f : Fields) : Except String Rec × Rec :=
  match wl with
  | none =>
    if (filter_fields f).isEmpty then
      if valid r then (.ok r, r) else (.error "ValidationError", dbRow)
    else (.error "ModelError", dbRow)
  | some wl =>
    let updated := apply_mutable wl (filter_fields f) r
    if valid updated then (.ok updated, updated)
    else (.error "ValidationError", dbRow)

/-- `ApiView.validate_model`: construct a fresh instance from the fields and
`full_clean` it; `ModelError` or `ValidationError` becomes a 400
`RequestError` with reason `invalidField`. -/
def validate_model (cfg : ApiCfg) (f : Fields) : Except HttpErrT Rec :=
  match model_new cfg f with
  | .error _ => .error (mkHttpError .requestError Reasons.invalid_field)
  | .ok r =>
    if cfg.valid r then .ok r
    else .error (mkHttpError .requestError Reasons.invalid_field)

/-- `ApiView.create_model` over `Model.create`: construct, validate,
persist; failures become a 400 `RequestError` with reason `invalidField`. -/
def create_model (cfg : ApiCfg) (f : Fields) : Except HttpErrT Rec :=
  match model_new cfg f with
  | .error _ => .error (mkHttpError .requestError Reasons.invalid_field)
  | .ok r =>
    if cfg.valid r then .ok r
    else .error (mkHttpError .requestError Reasons.invalid_field)

/-- `ApiView.update_model`: `record.update(**fields)` with `ModelError` and
`ValidationError` mapped to a 400 `RequestError`, reason `invalidField`. -/
def update_model (cfg : ApiCfg) (r : Rec) (f : Fields) : Except HttpErrT Rec :=
  match (model_update cfg.mutable_fields cfg.valid r r f).1 with
  | .error _ => .error (mkHttpError .requestError Reasons.invalid_field)
  | .ok u => .ok u

/-- `ApiView.retrieve_model_by_key`: `DoesNotExist` becomes a 404
`NotFoundError` (class-level reason `notFound`). -/
def retrieve_model_by_key (db : Db) (k : Nat) : Except HttpErrT Rec :=
  match lookupA k db with
  | some r => .ok r
  | none => .error (mkHttpError .notFoundError "")

/-- `Model.raw` with `serializable_fields` configured: project the record
onto the configured field names. -/
def rawFields (cfg : ApiCfg) (r : Rec) : List (String × Option Int) :=
  cfg.serializable_fields.map (fun fn => (fn, r fn))

/-- A JSON value a handler can return: a single-resource envelope, a
collection envelope, the `DELETE` success flag, or one of the shared
`JsonError` dictionaries returned as a plain value. -/
inductive RVal where
  | single (name : String) (flds : List (String × Option Int))
  | collection (plural : String) (items : List (Nat × List (String × Option Int)))
  | successTrue
  | envDict (env : ErrEnvelope)
deriving DecidableEq, Repr

/-- `ApiView.return_model`. -/
def return_model (cfg : ApiCfg) (r : Rec) : RVal :=
  .single cfg.name (rawFields cfg r)

/-- What a handler method produces: a JSON value, a raised `HttpError`, or
a raised exception that is not an `HttpError`. -/
inductive HandlerOut where
  | value (v : RVal)
  | httpErr (e : HttpErrT)
  | pyError (msg : String)
deriving DecidableEq, Repr

/-- The parsed request body: the top-level JSON object mapping resource
names to field objects. -/
abbrev JsonBody := List (String × Fields)

/-- `ApiView.read_json`: `self.json_body[self.model.model_name()]`, with
`KeyError` mapped to `None`. -/
def read_json (cfg : ApiCfg) (body : JsonBody) : Option Fields :=
  lookupA cfg.name body

/-- `ApiView.get`. -/
def get_handler (cfg : ApiCfg) (db : Db) (key? : Option Nat) : HandlerOut :=
  match key? with
  | some k =>
    match retrieve_model_by_key db k with
    | .error e => .httpErr e
    | .ok r => .value (return_model cfg r)
  | none =>
    .value (.collection cfg.plural (db.map fun kv => (kv.1, rawFields cfg kv.2)))

/-- `ApiView.post`: with a key present, return the shared
`JsonError.bad_method` dictionary; otherwise body fields (`{}` when the
resource key is absent) go through `filter_inbound`/`deserialize`
(identity) and `create_model`. -/
def post_handler (st : Stale) (cfg : ApiCfg) (key? : Option Nat)
    (body : JsonBody) : HandlerOut :=
  match key? with
  | some _ => .value (.envDict (badMethodEnv st))
  | none =>
    let json := (read_json cfg body).getD []
    match create_model cfg json with
    | .error e => .httpErr e
    | .ok r => .value (return_model cfg r)

/-- `ApiView.put`: without a key, return the shared `JsonError.bad_method`
dictionary.  Otherwise, in source order: read and deserialize the body
fields, retrieve the record, run `validate_model`, run `update_model`, and
render the updated record.  When the body has no resource key the fields
are `None` and `validate_model(**None)` raises `TypeError`, which is not
an `HttpError`. -/
def put_handler (st : Stale) (cfg : ApiCfg) (db : Db) (key? : Option Nat)
    (body : JsonBody) : HandlerOut :=
  match key? with
  | none => .value (.envDict (badMethodEnv st))
  | some k =>
    let fields? := read_json cfg body
    match retrieve_model_by_key db k with
    | .error e => .httpErr e
    | .ok rec =>
      match fields? with
      | none => .pyError "TypeError"
      | some f =>
        match validate_model cfg f with
        | .error e => .httpErr e
        | .ok _ =>
          match update_model cfg rec f with
          | .error e => .httpErr e
          | .ok u => .value (return_model cfg u)

/-- `ApiView.delete`: without a key, raise a 400 `RequestError` with reason
`noKey`; otherwise retrieve and delete, mapping `IntegrityError` to a 400
`RequestError` with reason `integrityError`. -/
def delete_handler (cfg : ApiCfg) (db : Db) (key? : Option Nat) : HandlerOut :=
  match key? with
  | none => .httpErr (mkHttpError .requestError Reasons.no_key)
  | some k =>
    match retrieve_model_by_key db k with
    | .error e => .httpErr e
    | .ok r =>
      if cfg.deleteOk r then .value .successTrue
      else .httpErr (mkHttpError .requestError Reasons.integrity_error)

inductive Method where
  | get
  | post
  | put
  | delete
deriving DecidableEq, Repr

/-- The body-loading step of `JsonView.dispatch`: an empty body is not
parsed at all and leaves `json_body` as the empty mapping; a non-empty
body goes through the strict decoder (`none` = decode failure, or a
JSON value that is not an object). -/
def parse_body (decode : String → Option JsonBody) (rawBody : String) :
    Option JsonBody :=
  if rawBody = "" then some [] else decode rawBody

/-- The dispatched HTTP response: a status code and a JSON body, or an
exception that escaped the view (Django would turn it into a stack
trace further out). -/
inductive Resp where
  | page (status : Nat) (body : RVal)
  | uncaught (msg : String)
deriving DecidableEq, Repr

/-- `JsonView.dispatch` composed with `ApiView.dispatch` and the method
routing of the base view class: load the body (short-circuiting with the
shared `JsonError.bad_request` dictionary on a decode failure), run the
method handler, wrap a returned value in a `JsonResponse` (whose status
comes from `data['error']['code']` when the value is an error dictionary,
and is 200 otherwise), and render any raised `HttpError` through
`JsonError.from_code` plus the reason assignment. -/
def api_dispatch (st : Stale) (cfg : ApiCfg)
    (decode : String → Option JsonBody) (db : Db) (m : Method)
    (key? : Option Nat) (rawBody : String) : Resp :=
  match parse_body decode rawBody with
  | none => .page 400 (.envDict (badRequestEnv st))
  | some body =>
    let out : HandlerOut :=
      match m with
      | .get => get_handler cfg db key?
      | .post => post_handler st cfg key? body
      | .put => put_handler st cfg db key? body
      | .delete => delete_handler cfg db key?
    match out with
    | .value (.envDict env) => .page env.code (.envDict env)
    | .value v => .page 200 v
    | .httpErr e =>
      match render_http_error st e with
      | (_, some env) => .page env.code (.envDict env)
      | (_, none) => .uncaught "TypeError"
    | .pyError msg => .uncaught msg

/-! ## Outermost logging middleware (`log.py`) -/

/-- The Python exception taxonomy as far as the outer middleware can
distinguish it: `HttpError` derives from `RuntimeError`; `TypeError`,
`ValueError` and `KeyError` do not. -/
inductive PyExc where
  | httpError (e : HttpErrT)
  | runtimeError (msg : String)
  | typeError (msg : String)
  | valueError (msg : String)
  | keyError (msg : String)
deriving DecidableEq, Repr

def isRuntimeError : PyExc → Bool
  | .httpError _ => true
  | .runtimeError _ => true
  | _ => false

/-- `log.Middleware.__call__`: the handler outcome is either a response or
a raised exception; only `RuntimeError` instances are caught and replaced
by the shared `JsonError.server_error` dictionary. -/
def middleware_call (st : Stale) (outcome : Except PyExc Resp) :
    Except PyExc Resp :=
  match outcome with
  | .ok r => .ok r
  | .error e =>
    if isRuntimeError e then .ok (.page 500 (.envDict (serverErrorEnv st)))
    else .error e

/-! ## Concrete fixtures used by witnesses and counterexamples -/

/-- A widget resource: a required `name` field and a non-negative `price`. -/
def widgetValid : Rec → Bool :=
  fun r => (r "name").isSome && decide (0 ≤ (r "price").getD 0)

def widgetCfg : ApiCfg :=
  ⟨"widget", "widgets", ["name", "price"], some ["name", "price"],
    ["name", "price"], widgetValid, fun _ => true⟩

def widgetRec0 : Rec := freshRec [("name", 7), ("price", 5)]

def widgetDb : Db := [(1, widgetRec0)]

/-- A strict-decoder oracle for a body holding only a new price. -/
def c3decode : String → Option JsonBody :=
  fun s => if s = "B" then some [("widget", [("price", 10)])] else none

/-- A strict-decoder oracle for a body holding a full widget. -/
def c3decodeFull : String → Option JsonBody :=
  fun s => if s = "B" then some [("widget", [("name", 9), ("price", 10)])] else none

/-- A strict-decoder oracle for a body that is a JSON object with no
resource key. -/
def c2decode : String → Option JsonBody :=
  fun s => if s = "B" then some [] else none

/-- A jwt oracle under which token `t1` is expired and every other token
has a tampered signature. -/
def c5dec : List Char → JwtOutcome :=
  fun t => if t = "t1".toList then .expiredSignature else .invalidSignature

/-! ## Shared evaluation lemmas -/

lemma render_invalid_field (st : Stale) :
    render_http_error st (mkHttpError .requestError Reasons.invalid_field) =
      (st.set 400 (some Reasons.invalid_field),
        some ⟨400, "Bad request", some Reasons.invalid_field⟩) := rfl

lemma render_not_found (st : Stale) :
    render_http_error st (mkHttpError .notFoundError "") =
      (st.set 404 (some Reasons.not_found),
        some ⟨404, "Resource not found", some Reasons.not_found⟩) := rfl

lemma reasons_all_nonempty : ∀ r ∈ Reasons.all, r ≠ "" := by decide

lemma lookupA_eq_none_of_not_mem {α : Type} (k : String) (f : List (String × α))
    (h : k ∉ f.map Prod.fst) : lookupA k f = none := by
  induction f with
  | nil => rfl
  | cons kv t ih =>
    rw [List.map_cons] at h
    have h1 : k ≠ kv.1 := fun he => h (by rw [he]; exact List.mem_cons_self _ _)
    have h2 : k ∉ t.map Prod.fst := fun hm => h (List.mem_cons_of_mem _ hm)
    simp [lookupA, h1, ih h2]

/-- The assignment loop of `Model.update`, pointwise: a key of `f` that is
in the whitelist ends up at its `f` value, every other key keeps the
record's previous value. -/
lemma apply_mutable_lookup (wl : List String) (f : Fields) (r : Rec) (k : String)
    (hnd : (f.map Prod.fst).Nodup) :
    apply_mutable wl f r k =
      match lookupA k f with
      | some v => if k ∈ wl then some v else r k
      | none => r k := by
  induction f generalizing r with
  | nil => rfl
  | cons kv t ih =>
    have hk0 : kv.1 ∉ t.map Prod.fst := by
      rw [List.map_cons, List.nodup_cons] at hnd
      exact hnd.1
    have hndt : (t.map Prod.fst).Nodup := by
      rw [List.map_cons, List.nodup_cons] at hnd
      exact hnd.2
    have hstep : apply_mutable wl (kv :: t) r =
        apply_mutable wl t (if kv.1 ∈ wl then setF r kv.1 kv.2 else r) := rfl
    rw [hstep, ih _ hndt]
    by_cases hk : k = kv.1
    · subst hk
      rw [lookupA_eq_none_of_not_mem kv.1 t hk0]
      by_cases hw : kv.1 ∈ wl <;> simp [lookupA, setF, hw]
    · by_cases hw : kv.1 ∈ wl <;> simp [lookupA, hk, setF, hw]

/-! ## Claim theorems -/

/-- C1.  The claim says `authorize_request` succeeds for every well-formed
`Authorization: Bearer token` header whose token verifies.  In fact
`authorize_request` splits the value returned by `get_bearer_token` —
which is already the space-free chunk after the scheme — a second time,
so the tuple assignment always fails and every request is rejected, even
one carrying a verifying token with `sub` and `perm` and an existing
user.  The second conjunct evaluates the code at such a failing input. -/
theorem c1_authorize_request_never_succeeds :
    (∀ (userExists : Int → Bool) (decodeToken : List Char → JwtOutcome)
        (header : Option (List Char)),
      ∃ e, authorize_request userExists decodeToken header = .error e) ∧
    authorize_request (fun _ => true)
        (fun _ => .valid ⟨some 1, some ["perm"]⟩)
        (some ("Bearer token123".toList)) =
      .error ⟨"Could not read bearer token"⟩ := by
  constructor
  · exact authorize_request_fails
  · rfl

/-- C2.  The claim says every non-HttpError exception is caught at the
outermost boundary and turned into the 500 serverError envelope.  The
boundary (`log.Middleware.__call__`) only catches `RuntimeError`; a
`TypeError` — which the repository itself produces on a `PUT` whose JSON
body lacks the resource key, via `validate_model(**None)` — escapes
uncaught.  RuntimeErrors, by contrast, are converted as claimed. -/
theorem c2_non_runtime_exception_escapes :
    api_dispatch Stale.init widgetCfg c2decode widgetDb .put (some 1) "B" =
      .uncaught "TypeError" ∧
    middleware_call Stale.init (.error (.typeError "TypeError")) =
      .error (.typeError "TypeError") ∧
    middleware_call Stale.init (.error (.runtimeError "boom")) =
      .ok (.page 500 (.envDict (serverErrorEnv Stale.init))) := by
  exact ⟨rfl, rfl, rfl⟩

/-- C3 (counterexample).  An existing record `(name 7, price 5)` and the
body `{widget: {price: 10}}`: the whitelisted fields yield the valid
updated record `(name 7, price 10)`, yet the `PUT` does not succeed — the
pre-check validates the body's fields as a standalone new record, whose
missing `name` fails `full_clean`, so the response is the 400
`invalidField` envelope. -/
theorem c3_counterexample_precheck_rejects_partial_update :
    widgetValid (apply_mutable ["name", "price"] [("price", 10)] widgetRec0) =
      true ∧
    lookupA 1 widgetDb = some widgetRec0 ∧
    api_dispatch Stale.init widgetCfg c3decode widgetDb .put (some 1) "B" =
      .page 400 (.envDict ⟨400, "Bad request", some Reasons.invalid_field⟩) := by
  exact ⟨by decide, rfl, rfl⟩

/-- C3 (amended).  For a `PUT` with a key whose body parses, the controller
deserializes the body, retrieves the record by key, runs the validation
pre-check on the body fields as a standalone new record, applies the
whitelist-filtered update and renders the updated single-resource
envelope.  A missing key maps to `notFound` (retrieval precedes the
pre-check); the `PUT` succeeds when the body fields are model fields,
pass the standalone pre-check, and yield a valid updated record; it maps
to `invalidField` when the fields fail construction, the pre-check, or
the update validation. -/
theorem c3_put_flow (st : Stale) (cfg : ApiCfg)
    (decode : String → Option JsonBody) (db : Db) (k : Nat) (rawBody : String)
    (jb : JsonBody) (hparse : parse_body decode rawBody = some jb) :
    (lookupA k db = none →
      api_dispatch st cfg decode db .put (some k) rawBody =
        .page 404 (.envDict ⟨404, "Resource not found", some Reasons.not_found⟩)) ∧
    (∀ rec f wl, lookupA k db = some rec → read_json cfg jb = some f →
      cfg.mutable_fields = some wl →
      (f.all (fun kv => cfg.fieldNames.contains kv.1) = true →
        cfg.valid (freshRec f) = true →
        cfg.valid (apply_mutable wl f rec) = true →
        api_dispatch st cfg decode db .put (some k) rawBody =
          .page 200 (.single cfg.name (rawFields cfg (apply_mutable wl f rec)))) ∧
      (cfg.valid (freshRec f) = false ∨
        f.all (fun kv => cfg.fieldNames.contains kv.1) = false ∨
        cfg.valid (apply_mutable wl f rec) = false →
        api_dispatch st cfg decode db .put (some k) rawBody =
          .page 400 (.envDict ⟨400, "Bad request", some Reasons.invalid_field⟩))) := by
  constructor
  · intro hnone
    have hret : retrieve_model_by_key db k = .error (mkHttpError .notFoundError "") := by
      simp [retrieve_model_by_key, hnone]
    simp [api_dispatch, hparse, put_handler, hret, render_not_found]
  · intro rec f wl hrec hread hwl
    have hret : retrieve_model_by_key db k = .ok rec := by
      simp [retrieve_model_by_key, hrec]
    constructor
    · intro hctor hfresh hupd
      have hval : validate_model cfg f = .ok (freshRec f) := by
        simp only [validate_model, model_new, hctor, hfresh]
        simp [hfresh]
      have hupdm : update_model cfg rec f = .ok (apply_mutable wl f rec) := by
        simp only [update_model, hwl, model_update, filter_fields, hupd]
        simp [hupd]
      simp [api_dispatch, hparse, put_handler, hret, hread, hval, hupdm,
        return_model]
    · intro hbad
      cases hctor : f.all (fun kv => cfg.fieldNames.contains kv.1) with
      | false =>
        have hval : validate_model cfg f =
            .error (mkHttpError .requestError Reasons.invalid_field) := by
          simp only [validate_model, model_new, hctor]
          simp [hctor]
        simp [api_dispatch, hparse, put_handler, hret, hread, hval,
          render_invalid_field]
      | true =>
        cases hfresh : cfg.valid (freshRec f) with
        | false =>
          have hval : validate_model cfg f =
              .error (mkHttpError .requestError Reasons.invalid_field) := by
            simp only [validate_model, model_new, hctor, hfresh]
            simp [hfresh]
          simp [api_dispatch, hparse, put_handler, hret, hread, hval,
            render_invalid_field]
        | true =>
          have hupd : cfg.valid (apply_mutable wl f rec) = false := by
            rcases hbad with h | h | h
            · rw [hfresh] at h
              exact absurd h (by simp)
            · rw [hctor] at h
              exact absurd h (by simp)
            · exact h
          have hval : validate_model cfg f = .ok (freshRec f) := by
            simp only [validate_model, model_new, hctor, hfresh]
            simp [hfresh]
          have hupdm : update_model cfg rec f =
              .error (mkHttpError .requestError Reasons.invalid_field) := by
            simp only [update_model, hwl, model_update, filter_fields, hupd]
            simp [hupd]
          simp [api_dispatch, hparse, put_handler, hret, hread, hval, hupdm,
            render_invalid_field]

/-- Witness for C3: the success path evaluated on the widget fixture with
a full body `{widget: {name: 9, price: 10}}`. -/
theorem c3_put_flow_witness :
    api_dispatch Stale.init widgetCfg c3decodeFull widgetDb .put (some 1) "B" =
      .page 200 (.single "widget" (rawFields widgetCfg
        (apply_mutable ["name", "price"] [("name", 9), ("price", 10)] widgetRec0))) :=
  (((c3_put_flow Stale.init widgetCfg c3decodeFull widgetDb 1 "B"
      [("widget", [("name", 9), ("price", 10)])] rfl).2
    widgetRec0 [("name", 9), ("price", 10)] ["name", "price"]
    rfl rfl rfl).1) rfl rfl rfl

/-- C4.  `Model.update` with a configured whitelist: pointwise, exactly
the keys of `F` that are in the whitelist take their `F` value and every
other key keeps the record's previous value (non-whitelisted keys are
silently dropped); and the persisted row after the call is the updated
record exactly when the updated record validates, and the unchanged prior
row whenever validation fails. -/
theorem c4_update_whitelist_and_atomicity (wl : List String)
    (valid : Rec → Bool) (dbRow r : Rec) (f : Fields)
    (hnd : (f.map Prod.fst).Nodup) :
    (∀ k, apply_mutable wl f r k =
      match lookupA k f with
      | some v => if k ∈ wl then some v else r k
      | none => r k) ∧
    ((model_update (some wl) valid dbRow r f).2 =
      if valid (apply_mutable wl f r) then apply_mutable wl f r else dbRow) ∧
    (valid (apply_mutable wl f r) = false →
      (model_update (some wl) valid dbRow r f).1 = .error "ValidationError" ∧
      (model_update (some wl) valid dbRow r f).2 = dbRow) := by
  refine ⟨fun k => apply_mutable_lookup wl f r k hnd, ?_, ?_⟩
  · by_cases hv : valid (apply_mutable wl f r) <;>
      simp [model_update, filter_fields, hv]
  · intro hv
    constructor <;> simp [model_update, filter_fields, hv]

/-- Witness for C4: a non-whitelisted key is dropped, and a failed
validation leaves the persisted row unchanged. -/
theorem c4_update_whitelist_and_atomicity_witness :
    apply_mutable ["price"] [("price", 10), ("junk", 3)] widgetRec0 "junk" =
      none ∧
    (model_update (some ["price"]) (fun _ => false) widgetRec0 widgetRec0
      [("price", 10)]).2 = widgetRec0 := by
  constructor
  · have h := (c4_update_whitelist_and_atomicity ["price"] widgetValid
      widgetRec0 widgetRec0 [("price", 10), ("junk", 3)] (by decide)).1 "junk"
    simpa [widgetRec0, freshRec, lookupA] using h
  · exact ((c4_update_whitelist_and_atomicity ["price"] (fun _ => false)
      widgetRec0 widgetRec0 [("price", 10)] (by decide)).2.2 rfl).2

/-- C5.  For a non-exempt handler under the default verifier, a request
whose token is expired and a request whose token has a tampered
signature both produce the same response: the shared
`JsonError.unauthorized` dictionary, whose status code is 401.  The
caller cannot distinguish the two failure causes. -/
theorem c5_expired_and_tampered_indistinguishable (st : Stale)
    (userExists : Int → Bool) (dec : List Char → JwtOutcome)
    (perms : List String) (t1 t2 : List Char)
    (h1 : dec t1 = .expiredSignature) (h2 : dec t2 = .invalidSignature) :
    process_view st userExists dec ⟨false, none, perms⟩
        (some ("Bearer ".toList ++ t1)) = .respond (unauthorizedEnv st) ∧
    process_view st userExists dec ⟨false, none, perms⟩
        (some ("Bearer ".toList ++ t2)) = .respond (unauthorizedEnv st) ∧
    (unauthorizedEnv st).code = 401 := by
  have g : ∀ header, process_view st userExists dec ⟨false, none, perms⟩ header =
      .respond (unauthorizedEnv st) := by
    intro header
    obtain ⟨e, he⟩ := authorize_request_fails userExists dec header
    simp [process_view, he, Except.map]
  exact ⟨g _, g _, rfl⟩

/-- Witness for C5 at a concrete expired token `t1` and tampered token
`t2`. -/
theorem c5_expired_and_tampered_indistinguishable_witness :
    process_view Stale.init (fun _ => true) c5dec ⟨false, none, ["p"]⟩
        (some ("Bearer ".toList ++ "t1".toList)) =
      .respond (unauthorizedEnv Stale.init) ∧
    process_view Stale.init (fun _ => true) c5dec ⟨false, none, ["p"]⟩
        (some ("Bearer ".toList ++ "t2".toList)) =
      .respond (unauthorizedEnv Stale.init) ∧
    (unauthorizedEnv Stale.init).code = 401 :=
  c5_expired_and_tampered_indistinguishable Stale.init (fun _ => true) c5dec
    ["p"] "t1".toList "t2".toList (by rfl) (by rfl)

set_option maxRecDepth 4000 in
/-- C6.  Rendering any taxonomy error — a status code among 400, 401,
403, 404, 405, 500 with a reason from the closed Reasons set — through
the dispatch error path and reading the envelope back recovers exactly
the original status code and reason. -/
theorem c6_render_parse_roundtrip (st : Stale) (status : Nat) (reason : String)
    (hs : status ∈ [400, 401, 403, 404, 405, 500]) (hr : reason ∈ Reasons.all) :
    ((render_http_error st ⟨status, reason⟩).2).map parse_error =
      some (status, some reason) := by
  have hne : reason ≠ "" := reasons_all_nonempty reason hr
  fin_cases hs <;>
    simp [render_http_error, from_code, baseMessage, Stale.get, hne,
      parse_error]

/-- Witness for C6 at status 404 with reason `notFound`. -/
theorem c6_render_parse_roundtrip_witness :
    ((render_http_error Stale.init ⟨404, Reasons.not_found⟩).2).map parse_error =
      some (404, some Reasons.not_found) :=
  c6_render_parse_roundtrip Stale.init 404 Reasons.not_found (by decide)
    (by decide)

/-- C7 (counterexample).  A `POST` to a path with a key whose non-empty
body fails strict JSON decoding yields status 400, not 405: body parsing
runs before the method handler ever sees the key. -/
theorem c7_counterexample_malformed_body_overrides_405 :
    api_dispatch Stale.init widgetCfg (fun _ => none) widgetDb .post (some 1)
        "x" = .page 400 (.envDict (badRequestEnv Stale.init)) ∧
    (400 : Nat) ≠ 405 := by
  exact ⟨rfl, by decide⟩

/-- C7 (amended).  For every `POST` whose path includes a key and every
`PUT` whose path includes none, provided the body is empty or decodes as
JSON, the response status is 405, regardless of body content and resource
type; when a non-empty body fails strict decoding the response is the 400
`badRequest` envelope instead. -/
theorem c7_method_path_mismatch_405 (st : Stale) (cfg : ApiCfg)
    (decode : String → Option JsonBody) (db : Db) (k : Nat) (rawBody : String)
    (jb : JsonBody) (hparse : parse_body decode rawBody = some jb) :
    api_dispatch st cfg decode db .post (some k) rawBody =
      .page 405 (.envDict (badMethodEnv st)) ∧
    api_dispatch st cfg decode db .put none rawBody =
      .page 405 (.envDict (badMethodEnv st)) := by
  constructor <;>
    simp [api_dispatch, hparse, post_handler, put_handler, badMethodEnv]

/-- Witness for C7 with an empty body on the widget fixture. -/
theorem c7_method_path_mismatch_405_witness :
    api_dispatch Stale.init widgetCfg (fun _ => none) widgetDb .post (some 1)
        "" = .page 405 (.envDict (badMethodEnv Stale.init)) ∧
    api_dispatch Stale.init widgetCfg (fun _ => none) widgetDb .put none
        "" = .page 405 (.envDict (badMethodEnv Stale.init)) :=
  c7_method_path_mismatch_405 Stale.init widgetCfg (fun _ => none) widgetDb 1
    "" [] rfl

/-- C8.  A non-empty body that fails strict JSON decoding makes the
dispatcher answer with the 400 `badRequest` envelope — no exception
crosses the envelope layer — and an absent (empty) body is parsed as the
empty mapping rather than as a failure. -/
theorem c8_body_parse_boundary (st : Stale) (cfg : ApiCfg)
    (decode : String → Option JsonBody) (db : Db) (m : Method)
    (key? : Option Nat) (rawBody : String)
    (hne : rawBody ≠ "") (hfail : decode rawBody = none) :
    api_dispatch st cfg decode db m key? rawBody =
      .page 400 (.envDict (badRequestEnv st)) ∧
    parse_body decode "" = some [] := by
  constructor
  · simp [api_dispatch, parse_body, hne, hfail]
  · rfl

/-- Witness for C8 with the undecodable body `"x"` on the widget fixture. -/
theorem c8_body_parse_boundary_witness :
    api_dispatch Stale.init widgetCfg (fun _ => none) widgetDb .get none "x" =
      .page 400 (.envDict (badRequestEnv Stale.init)) ∧
    parse_body (fun _ : String => (none : Option JsonBody)) "" = some [] :=
  c8_body_parse_boundary Stale.init widgetCfg (fun _ => none) widgetDb .get
    none "x" (by decide) rfl

/-- C9.  Error rendering is not stateless: rendering one HttpError writes
its reason into the shared per-status dictionary, and the envelope a
later malformed-body request receives differs from the one it would
receive in isolation — after a 400 `invalidField` render, the shared
`badRequest` dictionary permanently carries `reason: invalidField`. -/
theorem c9_shared_error_dict_mutation :
    (render_http_error Stale.init
        (mkHttpError .requestError Reasons.invalid_field)).1 ≠ Stale.init ∧
    badRequestEnv (render_http_error Stale.init
        (mkHttpError .requestError Reasons.invalid_field)).1 =
      ⟨400, "Bad request", some Reasons.invalid_field⟩ ∧
    badRequestEnv Stale.init = ⟨400, "Bad request", none⟩ ∧
    api_dispatch (render_http_error Stale.init
        (mkHttpError .requestError Reasons.invalid_field)).1
        widgetCfg (fun _ => none) widgetDb .post none "x" ≠
      api_dispatch Stale.init widgetCfg (fun _ => none) widgetDb .post none
        "x" := by
  exact ⟨by decide, rfl, rfl, by decide⟩

/-- C10.  A handler carrying the auth-exempt marker is admitted by
`process_view` without any check: no verifier runs, no `AuthInfo` is
attached, and a required-permissions marker on the same handler is not
enforced — for every permission list, every verifier override and every
header the result is plain admission. -/
theorem c10_auth_exempt_skips_all_checks (st : Stale)
    (userExists : Int → Bool) (dec : List Char → JwtOutcome)
    (m : Option (Option (List Char) → Except AuthErrorT (Option AuthInfo)))
    (perms : List String) (header : Option (List Char)) :
    process_view st userExists dec ⟨true, m, perms⟩ header = .allow none := by
  rfl

end QuickRest
